import Mathlib

/-!
# Verification of the venue2playlist filtering / track-selection core

Shallow embedding of the filter framework (`src/venue2playlist/filters/`),
the data model (`src/venue2playlist/models.py`) and the track-selection
strategies (`src/venue2playlist/spotify/strategies.py`).

Conventions of the embedding:
* Python `datetime.date` becomes the `PDate` structure ordered
  lexicographically by (year, month, day), exactly the order Python uses.
* Python floats that carry exact decimal values (confidence scores, era
  scores) become `Rat` / `Int`; all arithmetic performed on them by the
  source is exact in these ranges, so no rounding behaviour is lost.
* Python dictionaries indexed by known string keys become structures with
  `Option` fields (`None`/absent collapse, as `dict.get` does).
* `random.sample` is represented by an explicit `sample` function argument;
  theorems about the randomized strategies assume only that the sampler
  returns the requested number of elements, all drawn from its input, which
  is the documented contract of `random.sample`.
* Python's stable `list.sort(key=k)` / `sorted(key=k)` becomes
  `List.insertionSort` with relation `k a ≤ k b` (and `k b ≤ k a` for
  `reverse=True`): Mathlib's `orderedInsert` places the freshly inserted
  (earlier-in-input) element before equal keys, which is exactly the stable
  sort Python guarantees; stable sorts for a fixed total preorder agree.
-/

namespace Venue2Playlist

/-- Embedding of `datetime.date`: a (year, month, day) triple.  Python
compares dates lexicographically on these components. -/
structure PDate where
  year : Nat
  month : Nat
  day : Nat
deriving DecidableEq

/-- Python's `<=` on `datetime.date`: lexicographic on (year, month, day). -/
def PDate.leb (a b : PDate) : Bool :=
  if a.year ≠ b.year then a.year < b.year
  else if a.month ≠ b.month then a.month < b.month
  else a.day ≤ b.day

/-- Days in a month, as `datetime.date` validates them. -/
def daysInMonth (y m : Nat) : Nat :=
  if m = 2 then
    if y % 4 = 0 ∧ (y % 100 ≠ 0 ∨ y % 400 = 0) then 29 else 28
  else if m = 4 ∨ m = 6 ∨ m = 9 ∨ m = 11 then 30
  else 31

/-- Embedding of the `datetime.date(y, m, d)` constructor: `some` on valid
dates, `none` where Python raises `ValueError` (which the source catches). -/
def mkDate? (y m d : Int) : Option PDate :=
  if 1 ≤ y ∧ y ≤ 9999 ∧ 1 ≤ m ∧ m ≤ 12 ∧ 1 ≤ d ∧ d ≤ daysInMonth y.toNat m.toNat then
    some ⟨y.toNat, m.toNat, d.toNat⟩
  else none

/-- Zero-pad a decimal numeral on the left to width `w`. -/
def padZero (s : String) (w : Nat) : String :=
  String.mk (List.replicate (w - s.length) '0') ++ s

/-- `str()` of a `datetime.date`: ISO format `YYYY-MM-DD`. -/
def PDate.repr (d : PDate) : String :=
  padZero (toString d.year) 4 ++ "-" ++ padZero (toString d.month) 2 ++ "-"
    ++ padZero (toString d.day) 2

/-- `repr()` of a `datetime.date`, as it appears inside `str()` of a tuple. -/
def PDate.pyRepr (d : PDate) : String :=
  "datetime.date(" ++ toString d.year ++ ", " ++ toString d.month ++ ", "
    ++ toString d.day ++ ")"

/-- `str()` of a pair of dates (a Python 2-tuple). -/
def dateRangeRepr (r : PDate × PDate) : String :=
  "(" ++ r.1.pyRepr ++ ", " ++ r.2.pyRepr ++ ")"

/-- A hashable scalar metadata value: Python `set`s can only hold hashable
values, so the allowed-values set of a field filter holds these. -/
inductive MetaScalar
  | str (s : String)
  | int (n : Int)
  | bool (b : Bool)
deriving DecidableEq

/-- A metadata value as stored in a record's metadata dict: a scalar or a
list of scalars (the closed sum the spec's design notes prescribe, covering
both branches of the source's `isinstance(value, list)` dispatch). -/
inductive MetaValue
  | scalar (v : MetaScalar)
  | list (vs : List MetaScalar)
deriving DecidableEq

/-- Python `str()` of a metadata scalar. -/
def MetaScalar.repr : MetaScalar → String
  | .str s => s
  | .int n => toString n
  | .bool b => if b then "True" else "False"

/-- Python `str()` of a metadata value. -/
def MetaValue.repr : MetaValue → String
  | .scalar v => v.repr
  | .list vs => "[" ++ String.intercalate ", " (vs.map fun v =>
      match v with
      | .str s => "'" ++ s ++ "'"
      | v => v.repr) ++ "]"

/-- Embedding of the `Performance` pydantic model (`models.py`).  The
`metadata` dict becomes an association list; `confidence_score` is the exact
decimal the float carries. -/
structure Performance where
  artist_name : String
  venue_name : String
  city : String := ""
  country : Option String := none
  performance_date : Option PDate := none
  performance_date_range : Option (PDate × PDate) := none
  source_name : String := ""
  source_reference : String := ""
  confidence_score : Rat
  metadata : List (String × MetaValue) := []
deriving DecidableEq

/-- `Performance.has_valid_date`. -/
def Performance.has_valid_date (p : Performance) : Bool :=
  p.performance_date.isSome || p.performance_date_range.isSome

/-- `Performance.overlaps_range`: the exact date, when present, decides;
otherwise the closed-interval overlap test on the documented range. -/
def Performance.overlaps_range (p : Performance) (start finish : PDate) : Bool :=
  match p.performance_date with
  | some d => PDate.leb start d && PDate.leb d finish
  | none =>
    match p.performance_date_range with
    | some (perf_start, perf_end) =>
      -- Ranges overlap if neither ends before the other starts
      PDate.leb perf_start finish && PDate.leb start perf_end
    | none => false

/-- Embedding of the `ExcludedItem` pydantic model. -/
structure ExcludedItem where
  item_type : String
  name : String
  reason : String
  filter_name : Option String := none
deriving DecidableEq

/-- Embedding of `FilterResult` (filters/__init__.py). -/
structure FilterResult where
  included : List Performance := []
  excluded : List ExcludedItem := []
deriving DecidableEq

/-! ## Decimal rendering of the exact float values used in reason strings -/

/-- Render `n / 10^k` (for `k ≥ 1`) in fixed-point decimal. -/
def fixedRepr (n : Int) (k : Nat) : String :=
  let s := padZero (toString n.natAbs) (k + 1)
  let m := s.length - k
  (if n < 0 then "-" else "") ++ s.take m ++ "." ++ s.drop m

/-- Python's `f"{x:.2f}"` on an exact decimal value: round to two fractional
digits (computed as `⌊100q + 1/2⌋` on the numerator/denominator; the values
formatted by the source are exact nonnegative two-decimal quantities, so no
float-tie behaviour is exercised) and render. -/
def fmtFixed2 (q : Rat) : String :=
  fixedRepr ((q.num * 200 + (q.den : Int)) / (2 * (q.den : Int))) 2

/-- Smallest number of fractional decimal digits that writes `q` exactly
(capped at 17, the float repr limit): the least `k` with `q.den ∣ 10^k`. -/
def decExp (q : Rat) : Nat :=
  ((List.range 18).find? fun k => (10 : Nat) ^ k % q.den = 0).getD 17

/-- Python's `str()` / `repr()` of a float holding the exact decimal `q`:
shortest decimal form, with at least one fractional digit. -/
def pyFloatRepr (q : Rat) : String :=
  let k := max 1 (decExp q)
  fixedRepr (q.num * (((10 : Nat) ^ k / q.den : Nat) : Int)) k

/-! ## Confidence filter (filters/confidence.py) -/

/-- Embedding of a constructed `ConfidenceFilter`. -/
structure ConfidenceFilter where
  min_confidence : Rat
deriving DecidableEq

/-- `ConfidenceFilter.__init__`: raises `ValueError` — the spec's
InvalidConfiguration error — unless `0.0 <= min_confidence <= 1.0`. -/
def ConfidenceFilter.init (min_confidence : Rat) : Except String ConfidenceFilter :=
  if ¬(0 ≤ min_confidence ∧ min_confidence ≤ 1) then
    .error "min_confidence must be between 0.0 and 1.0"
  else
    .ok ⟨min_confidence⟩

/-- `ConfidenceFilter.name`. -/
def ConfidenceFilter.name (f : ConfidenceFilter) : String :=
  "confidence(>=" ++ pyFloatRepr f.min_confidence ++ ")"

/-- The exclusion record the confidence filter emits for `perf`. -/
def ConfidenceFilter.excludeItem (f : ConfidenceFilter) (perf : Performance) : ExcludedItem :=
  { item_type := "performance"
    name := perf.artist_name ++ " @ " ++ perf.venue_name
    reason := "Confidence " ++ fmtFixed2 perf.confidence_score
      ++ " below threshold " ++ pyFloatRepr f.min_confidence
    filter_name := some f.name }

/-- `ConfidenceFilter.apply`: the source's loop, written as structural
recursion producing the same two output lists in the same order. -/
def ConfidenceFilter.apply (f : ConfidenceFilter) : List Performance → FilterResult
  | [] => {}
  | perf :: rest =>
    let r := f.apply rest
    if f.min_confidence ≤ perf.confidence_score then
      { r with included := perf :: r.included }
    else
      { r with excluded := f.excludeItem perf :: r.excluded }

/-! ## Date-range filter (filters/date_range.py) -/

/-- Embedding of a constructed `DateRangeFilter` (inclusive bounds). -/
structure DateRangeFilter where
  start_date : PDate
  end_date : PDate
deriving DecidableEq

/-- `DateRangeFilter.name`. -/
def DateRangeFilter.name (f : DateRangeFilter) : String :=
  "date_range(" ++ f.start_date.repr ++ ":" ++ f.end_date.repr ++ ")"

/-- `str(perf.performance_date or perf.performance_date_range)` as used in
the out-of-range exclusion reason. -/
def dateEvidenceRepr (perf : Performance) : String :=
  match perf.performance_date with
  | some d => d.repr
  | none =>
    match perf.performance_date_range with
    | some r => dateRangeRepr r
    | none => "None"

/-- The exclusion record for a record with no temporal evidence. -/
def DateRangeFilter.noDateItem (f : DateRangeFilter) (perf : Performance) : ExcludedItem :=
  { item_type := "performance"
    name := perf.artist_name ++ " @ " ++ perf.venue_name
    reason := "No temporal evidence (missing date)"
    filter_name := some f.name }

/-- The exclusion record for a record whose date lies outside the range. -/
def DateRangeFilter.outsideItem (f : DateRangeFilter) (perf : Performance) : ExcludedItem :=
  { item_type := "performance"
    name := perf.artist_name ++ " @ " ++ perf.venue_name
    reason := "Date " ++ dateEvidenceRepr perf ++ " outside range "
      ++ f.start_date.repr ++ " to " ++ f.end_date.repr
    filter_name := some f.name }

/-- `DateRangeFilter.apply`. -/
def DateRangeFilter.apply (f : DateRangeFilter) : List Performance → FilterResult
  | [] => {}
  | perf :: rest =>
    let r := f.apply rest
    if ¬perf.has_valid_date then
      { r with excluded := f.noDateItem perf :: r.excluded }
    else if perf.overlaps_range f.start_date f.end_date then
      { r with included := perf :: r.included }
    else
      { r with excluded := f.outsideItem perf :: r.excluded }

/-- Python's `str.lower()` for the ASCII strings this program handles,
written over the character list so that it evaluates by kernel reduction. -/
def pyLower (s : String) : String :=
  String.mk (s.toList.map Char.toLower)

/-- Python's `str.split(sep)` on the character list: always at least one
(possibly empty) piece. -/
def splitOnChar (sep : Char) : List Char → List (List Char)
  | [] => [[]]
  | c :: rest =>
    let r := splitOnChar sep rest
    if c = sep then [] :: r
    else
      match r with
      | h :: t => (c :: h) :: t
      | [] => [[c]]

/-- Python's `str.split(sep)` for a one-character separator. -/
def pySplit (s : String) (sep : Char) : List String :=
  (splitOnChar sep s.toList).map String.mk

/-- The numeric value of a nonempty all-digit character list. -/
def digitsVal (cs : List Char) : Nat :=
  cs.foldl (fun acc c => acc * 10 + (c.toNat - 48)) 0

/-- Parse a nonempty all-digit character list; `none` otherwise. -/
def parseDigits (cs : List Char) : Option Nat :=
  if cs ≠ [] ∧ cs.all Char.isDigit then some (digitsVal cs) else none

/-- Python's `int(str)` for the decimal strings this program parses (an
optional sign followed by digits; anything else raises `ValueError`, which
callers catch — embedded as `none`). -/
def pyInt? (s : String) : Option Int :=
  match s.toList with
  | '-' :: rest => (parseDigits rest).map fun n => -(n : Int)
  | '+' :: rest => (parseDigits rest).map fun n => (n : Int)
  | cs => (parseDigits cs).map fun n => (n : Int)

/-! ## Field filter (filters/field.py) -/

/-- Embedding of a constructed `FieldFilter`. -/
structure FieldFilter where
  field : String
  allowed_values : List MetaScalar
  case_insensitive : Bool := true
  include_missing : Bool := false
deriving DecidableEq

/-- `FieldFilter._normalize_value` on a scalar: lowercase strings when the
filter is case-insensitive, leave everything else unchanged. -/
def FieldFilter.normalizeScalar (f : FieldFilter) (v : MetaScalar) : MetaScalar :=
  match v with
  | .str s => if f.case_insensitive then .str (pyLower s) else .str s
  | v => v

/-- The pre-normalized allowed set computed in `FieldFilter.__init__`. -/
def FieldFilter.normalizedAllowed (f : FieldFilter) : List MetaScalar :=
  if f.case_insensitive then f.allowed_values.map f.normalizeScalar
  else f.allowed_values

/-- `FieldFilter._matches`: list values match if any element matches; scalar
values match if the normalized value is in the normalized allowed set. -/
def FieldFilter.matches (f : FieldFilter) (value : MetaValue) : Bool :=
  match value with
  | .list vs => vs.any fun v => f.normalizedAllowed.contains (f.normalizeScalar v)
  | .scalar v => f.normalizedAllowed.contains (f.normalizeScalar v)

/-- `FieldFilter.name` (`field({field}={{...}})` with values sorted by their
string form). -/
def FieldFilter.name (f : FieldFilter) : String :=
  let sortedVals := f.allowed_values.insertionSort
    fun a b => ¬MetaScalar.repr b < MetaScalar.repr a
  "field(" ++ f.field ++ "=\x7b"
    ++ String.intercalate "," (sortedVals.map MetaScalar.repr) ++ "\x7d)"

/-- The exclusion record for a record missing the filter's field. -/
def FieldFilter.missingItem (f : FieldFilter) (perf : Performance) : ExcludedItem :=
  { item_type := "performance"
    name := perf.artist_name ++ " @ " ++ perf.venue_name
    reason := "Missing metadata field '" ++ f.field ++ "'"
    filter_name := some f.name }

/-- The exclusion record for a record whose field value is not allowed. -/
def FieldFilter.notAllowedItem (f : FieldFilter) (perf : Performance)
    (value : MetaValue) : ExcludedItem :=
  { item_type := "performance"
    name := perf.artist_name ++ " @ " ++ perf.venue_name
    reason := "Field '" ++ f.field ++ "' value '" ++ value.repr
      ++ "' not in allowed values"
    filter_name := some f.name }

/-- `metadata.get(field)`: first binding of the key, `none` when absent. -/
def metadataGet (metadata : List (String × MetaValue)) (key : String) : Option MetaValue :=
  (metadata.find? fun kv => kv.1 = key).map Prod.snd

/-- `FieldFilter.apply`. -/
def FieldFilter.apply (f : FieldFilter) : List Performance → FilterResult
  | [] => {}
  | perf :: rest =>
    let r := f.apply rest
    match metadataGet perf.metadata f.field with
    | none =>
      if f.include_missing then
        { r with included := perf :: r.included }
      else
        { r with excluded := f.missingItem perf :: r.excluded }
    | some field_value =>
      if f.matches field_value then
        { r with included := perf :: r.included }
      else
        { r with excluded := f.notAllowedItem perf field_value :: r.excluded }

/-! ## FilterChain (filters/__init__.py) -/

/-- The closed set of concrete filters shipped with the repository, as the
spec's design notes fix them: date-range, confidence, field. -/
inductive ConcreteFilter
  | confidence (f : ConfidenceFilter)
  | dateRange (f : DateRangeFilter)
  | fieldMatch (f : FieldFilter)
deriving DecidableEq

/-- Dynamic dispatch of `filter.apply` over the concrete filters. -/
def ConcreteFilter.apply : ConcreteFilter → List Performance → FilterResult
  | .confidence f => f.apply
  | .dateRange f => f.apply
  | .fieldMatch f => f.apply

/-- `FilterChain.apply`: thread the included list through the stages,
concatenating every stage's exclusions in order. -/
def FilterChain.apply (filters : List ConcreteFilter)
    (performances : List Performance) : FilterResult :=
  match filters with
  | [] => { included := performances }
  | f :: rest =>
    let r := f.apply performances
    let r2 := FilterChain.apply rest r.included
    { included := r2.included, excluded := r.excluded ++ r2.excluded }

/-! ## Track data and strategies (spotify/strategies.py) -/

/-- One entry of a track's `artists` list (only the name is read). -/
structure SimpleArtist where
  name : Option String := none
deriving DecidableEq

/-- The `album` sub-dict of a Spotify track dict (only the fields read). -/
structure AlbumData where
  name : Option String := none
  release_date : Option String := none
deriving DecidableEq

/-- A raw Spotify track dict as the strategies consume it.  `id` and `name`
are accessed unconditionally by the source (`track["id"]`, `track["name"]`),
so a well-formed track carries them; every other field is read with
`dict.get` and becomes an `Option`. -/
structure TrackData where
  id : String
  name : String
  artists : Option (List SimpleArtist) := none
  album : Option AlbumData := none
  popularity : Option Nat := none
deriving DecidableEq

/-- `track.get("album", {}).get("release_date", ...)` without the default. -/
def TrackData.releaseDateOpt (t : TrackData) : Option String :=
  t.album.bind AlbumData.release_date

/-- `track.get("popularity", 0)`. -/
def TrackData.popularityD (t : TrackData) : Nat :=
  t.popularity.getD 0

/-- Embedding of the `Track` pydantic model. -/
structure Track where
  spotify_id : String
  name : String
  artist_name : String
  album_name : String
  release_date : Option PDate
  popularity : Nat
  selection_strategy : String
  selection_reason : String
deriving DecidableEq

/-- Python `str.isdigit()` for the ASCII strings at hand: nonempty and all
digits. -/
def pyIsDigit (s : String) : Bool :=
  ¬s.isEmpty && s.toList.all Char.isDigit

/-- The release-date parsing block of `BaseStrategy._track_to_model`:
`YYYY`, `YYYY-MM`, `YYYY-MM-DD`; every `ValueError`/`IndexError` (from
`int()` or the `date()` constructor) is caught and yields `None`. -/
def parseReleaseDate (s : String) : Option PDate :=
  if s = "" then none
  else
    match pySplit s '-' with
    | p0 :: p1 :: p2 :: _ =>
      match pyInt? p0, pyInt? p1, pyInt? p2 with
      | some y, some m, some d => mkDate? y m d
      | _, _, _ => none
    | [p0, p1] =>
      match pyInt? p0, pyInt? p1 with
      | some y, some m => mkDate? y m 1
      | _, _ => none
    | [p0] => if pyIsDigit p0 then (pyInt? p0).bind fun y => mkDate? y 1 1 else none
    | [] => none

/-- `track.get("artists", [{}])[0].get("name", "Unknown")`.  (For a present
but empty `artists` list the source would raise `IndexError`; well-formed
input — the only input the spec's contract covers — has a nonempty list when
the key is present, and the embedding extends totally over the rest.) -/
def firstArtistName (t : TrackData) : String :=
  match t.artists with
  | none => "Unknown"
  | some (a :: _) => a.name.getD "Unknown"
  | some [] => "Unknown"

/-- `BaseStrategy._track_to_model`. -/
def track_to_model (strategyName : String) (track : TrackData) (reason : String) : Track :=
  { spotify_id := track.id
    name := track.name
    artist_name := firstArtistName track
    album_name := (t_album_name track).getD "Unknown"
    release_date := parseReleaseDate (track.releaseDateOpt.getD "")
    popularity := track.popularityD
    selection_strategy := strategyName
    selection_reason := reason }
where
  t_album_name (track : TrackData) : Option String := track.album.bind AlbumData.name

/-- `TopNStrategy.select_tracks`: first `count` tracks, rank reasons. -/
def TopNStrategy.select_tracks (artist_id artist_name : String)
    (tracks : List TrackData) (performance_date : Option PDate) (count : Nat) :
    List Track :=
  let selected := tracks.take count
  selected.enum.map fun it =>
    track_to_model "top_n" it.2 ("Top " ++ toString (it.1 + 1) ++ " by popularity")

/-- `RandomNStrategy.select_tracks`.  `sample` stands for `random.sample`. -/
def RandomNStrategy.select_tracks (sample : List TrackData → Nat → List TrackData)
    (artist_id artist_name : String) (tracks : List TrackData)
    (performance_date : Option PDate) (count : Nat) : List Track :=
  let selected := if tracks.length ≤ count then tracks else sample tracks count
  selected.map fun t => track_to_model "random_n" t "Random selection from catalog"

/-- `EraWeightedStrategy._calculate_era_score`: parse the leading year of
the release-date string; unparsable or empty gives `0`; otherwise
`max(0, 100 - 10 * |release_year - performance_year|)`.  The Python floats
here carry exact integer values, embedded as `Int`. -/
def EraWeightedStrategy.calculate_era_score (release_date_str : String)
    (performance_date : PDate) : Int :=
  if release_date_str = "" then 0
  else
    match pyInt? ((pySplit release_date_str '-').headD "") with
    | none => 0
    | some release_year =>
      let years_diff : Int := (release_year - (performance_date.year : Int)).natAbs
      max 0 (100 - years_diff * 10)

/-- `EraWeightedStrategy.select_tracks`: fall back to Top-N when no
performance date; otherwise score, stable-sort descending by score, take
`count`. -/
def EraWeightedStrategy.select_tracks (artist_id artist_name : String)
    (tracks : List TrackData) (performance_date : Option PDate) (count : Nat) :
    List Track :=
  match performance_date with
  | none => TopNStrategy.select_tracks artist_id artist_name tracks none count
  | some pd =>
    let scored_tracks := tracks.map fun track =>
      (EraWeightedStrategy.calculate_era_score (track.releaseDateOpt.getD "") pd, track)
    let sortedScored := scored_tracks.insertionSort fun a b => b.1 ≤ a.1
    let selected := (sortedScored.take count).map Prod.snd
    selected.map fun t =>
      track_to_model "era_weighted" t
        ("Era-weighted: released " ++ t.releaseDateOpt.getD "unknown")

/-- Embedding of a constructed `DeepCutsStrategy`.  The popularity ceiling
is a Spotify popularity score, documented 0-100, hence `Nat`. -/
structure DeepCutsStrategy where
  max_popularity : Nat := 60
deriving DecidableEq

/-- `DeepCutsStrategy.name`. -/
def DeepCutsStrategy.name (strat : DeepCutsStrategy) : String :=
  "deep_cuts(max_pop=" ++ toString strat.max_popularity ++ ")"

/-- `DeepCutsStrategy.select_tracks`: pool of tracks with popularity at most
the ceiling; empty pool falls back to the `2*count` least popular (stable
ascending sort); return whole pool when small, otherwise sample `count`. -/
def DeepCutsStrategy.select_tracks (strat : DeepCutsStrategy)
    (sample : List TrackData → Nat → List TrackData)
    (artist_id artist_name : String) (tracks : List TrackData)
    (performance_date : Option PDate) (count : Nat) : List Track :=
  let deep_cuts := tracks.filter fun t => t.popularityD ≤ strat.max_popularity
  let pool :=
    if deep_cuts.isEmpty then
      (tracks.insertionSort fun a b => a.popularityD ≤ b.popularityD).take (count * 2)
    else deep_cuts
  let selected := if pool.length ≤ count then pool else sample pool count
  selected.map fun t =>
    track_to_model strat.name t
      ("Deep cut: popularity " ++ match t.popularity with
        | some p => toString p
        | none => "unknown")

/-- What `get_strategy` resolves to: one of the four strategy classes, with
the deep-cuts ceiling it was constructed with. -/
inductive StrategyChoice
  | top
  | random
  | era
  | deep (max_popularity : Nat)
deriving DecidableEq

/-- `get_strategy`: split off the part before the first hyphen (the numeric
suffix is not consumed here), lowercase it, look it up in the fixed table,
fall back to Top-N for unknown names (after logging a warning).
`max_popularity` stands for the optional `**kwargs` entry. -/
def get_strategy (name : String) (max_popularity : Option Nat) : StrategyChoice :=
  let strategy_name :=
    if name.toList.contains '-' then
      pyLower (String.mk (name.toList.takeWhile fun c => c != '-'))
    else
      pyLower name
  if strategy_name = "top" ∨ strategy_name = "top_n" then .top
  else if strategy_name = "random" ∨ strategy_name = "random_n" then .random
  else if strategy_name = "era" ∨ strategy_name = "era_weighted" then .era
  else if strategy_name = "deep" ∨ strategy_name = "deep_cuts" then
    .deep (max_popularity.getD 60)
  else .top

/-- Dispatch `select_tracks` over a resolved strategy, as the pipeline does. -/
def runStrategy (choice : StrategyChoice)
    (sample : List TrackData → Nat → List TrackData)
    (artist_id artist_name : String) (tracks : List TrackData)
    (performance_date : Option PDate) (count : Nat) : List Track :=
  match choice with
  | .top => TopNStrategy.select_tracks artist_id artist_name tracks performance_date count
  | .random =>
    RandomNStrategy.select_tracks sample artist_id artist_name tracks performance_date count
  | .era =>
    EraWeightedStrategy.select_tracks artist_id artist_name tracks performance_date count
  | .deep mp =>
    DeepCutsStrategy.select_tracks ⟨mp⟩ sample artist_id artist_name tracks
      performance_date count

/-! ## Concrete fixtures used by witnesses and example conjuncts -/

/-- A record with confidence 0.3 and a 1990 date: fails both the 0.5
confidence threshold and a 1978 date window. -/
def perfLateLowConf : Performance :=
  { artist_name := "Television", venue_name := "CBGB",
    performance_date := some ⟨1990, 5, 1⟩, confidence_score := mkRat 3 10 }

/-- A record with confidence 0.49 (just below a 0.5 threshold). -/
def perf049 : Performance :=
  { artist_name := "The Damned", venue_name := "CBGB", confidence_score := mkRat 49 100 }

/-- A record with confidence exactly 0.5. -/
def perf05 : Performance :=
  { artist_name := "Blondie", venue_name := "CBGB", confidence_score := mkRat 1 2 }

/-- A record with exact date 1978-06-15. -/
def perfJune78 : Performance :=
  { artist_name := "Talking Heads", venue_name := "CBGB",
    performance_date := some ⟨1978, 6, 15⟩, confidence_score := 1 }

/-- A record with only a date range (1978-06-01, 1978-08-01). -/
def perfRange78 : Performance :=
  { artist_name := "Ramones", venue_name := "CBGB",
    performance_date_range := some (⟨1978, 6, 1⟩, ⟨1978, 8, 1⟩),
    confidence_score := 1 }

/-- A record with no temporal evidence at all. -/
def perfNoDate : Performance :=
  { artist_name := "Suicide", venue_name := "CBGB", confidence_score := 1 }

/-- Case-insensitive genre filter allowing punk and rock. -/
def genreFilter : FieldFilter :=
  { field := "genre", allowed_values := [.str "punk", .str "rock"] }

/-- Record with scalar genre "Punk". -/
def perfGenrePunk : Performance :=
  { artist_name := "Dead Boys", venue_name := "CBGB", confidence_score := 1,
    metadata := [("genre", .scalar (.str "Punk"))] }

/-- Record with list genre ["Jazz", "Rock"]. -/
def perfGenreList : Performance :=
  { artist_name := "Mink DeVille", venue_name := "CBGB", confidence_score := 1,
    metadata := [("genre", .list [.str "Jazz", .str "Rock"])] }

/-- Record with no genre key in its metadata. -/
def perfGenreMissing : Performance :=
  { artist_name := "The Cramps", venue_name := "CBGB", confidence_score := 1,
    metadata := [("country", .scalar (.str "US"))] }

/-- A track released in `y`, with the given id and popularity. -/
def trackRel (id : String) (rel : String) (pop : Option Nat) : TrackData :=
  { id := id, name := id, album := some { release_date := some rel },
    popularity := pop }

/-- The era-weighting example catalog: released 1977, 1978, 1985. -/
def eraTracks : List TrackData :=
  [trackRel "t77" "1977" none, trackRel "t78" "1978" none,
   trackRel "t85" "1985" none]

/-- A catalog with two tracks released the same year (an era-score tie). -/
def eraTieTracks : List TrackData :=
  [trackRel "t77a" "1977" none, trackRel "t77b" "1977" none,
   trackRel "t78" "1978" none]

/-- The deep-cuts example catalog: popularities 10, 70, 55, 90, 40. -/
def deepTracks : List TrackData :=
  [trackRel "p10" "1977" (some 10), trackRel "p70" "1977" (some 70),
   trackRel "p55" "1977" (some 55), trackRel "p90" "1977" (some 90),
   trackRel "p40" "1977" (some 40)]

/-- A catalog mixing a positive-popularity track and a track whose data has
no popularity field at all. -/
def mixedPopTracks : List TrackData :=
  [trackRel "hi" "1977" (some 5), trackRel "nopop" "1977" none]

/-- A deterministic sampler satisfying `random.sample`'s contract: the first
`n` elements. -/
def takeSampler (l : List TrackData) (n : Nat) : List TrackData :=
  l.take n

/-- The score the era-weighted strategy assigns to a track. -/
def eraScoreOf (pd : PDate) (t : TrackData) : Int :=
  EraWeightedStrategy.calculate_era_score (t.releaseDateOpt.getD "") pd

/-- The selected-track record the era-weighted strategy builds for `t`. -/
def eraConvert (t : TrackData) : Track :=
  track_to_model "era_weighted" t
    ("Era-weighted: released " ++ t.releaseDateOpt.getD "unknown")

/-- The selected-track record the deep-cuts strategy builds for `t`. -/
def deepConvert (strat : DeepCutsStrategy) (t : TrackData) : Track :=
  track_to_model strat.name t
    ("Deep cut: popularity " ++ match t.popularity with
      | some p => toString p
      | none => "unknown")

/-- The ascending stable popularity sort used by the deep-cuts fallback. -/
def popSortAsc (tracks : List TrackData) : List TrackData :=
  tracks.insertionSort fun a b => a.popularityD ≤ b.popularityD

/-- The deep-cuts candidate pool before the empty-pool fallback. -/
def deepCutPool (strat : DeepCutsStrategy) (tracks : List TrackData) : List TrackData :=
  tracks.filter fun t => t.popularityD ≤ strat.max_popularity

/-- The pool the deep-cuts strategy actually selects from: the candidate
pool, or — when that is empty — the `2*count` least popular tracks. -/
def deepCutPoolWithFallback (strat : DeepCutsStrategy) (tracks : List TrackData)
    (count : Nat) : List TrackData :=
  if (deepCutPool strat tracks).isEmpty then (popSortAsc tracks).take (count * 2)
  else deepCutPool strat tracks

/-! ## Helper lemmas: every concrete filter is a pure partition -/

/-- The inclusion predicate each concrete filter decides, record by record. -/
def ConcreteFilter.pred : ConcreteFilter → Performance → Bool
  | .confidence f => fun p => decide (f.min_confidence ≤ p.confidence_score)
  | .dateRange f => fun p =>
    p.has_valid_date && p.overlaps_range f.start_date f.end_date
  | .fieldMatch f => fun p =>
    match metadataGet p.metadata f.field with
    | none => f.include_missing
    | some v => f.matches v

/-- The exclusion record each concrete filter emits for a rejected record. -/
def ConcreteFilter.mkExcluded : ConcreteFilter → Performance → ExcludedItem
  | .confidence f => f.excludeItem
  | .dateRange f => fun p =>
    if ¬p.has_valid_date then f.noDateItem p else f.outsideItem p
  | .fieldMatch f => fun p =>
    match metadataGet p.metadata f.field with
    | none => f.missingItem p
    | some v => f.notAllowedItem p v

/-- Every concrete filter's `apply` is exactly: keep the records satisfying
its predicate (in order), emit one exclusion record per rejected record (in
order). -/
theorem ConcreteFilter.apply_eq (c : ConcreteFilter) (l : List Performance) :
    c.apply l = { included := l.filter c.pred,
                  excluded := (l.filter fun p => !c.pred p).map c.mkExcluded } := by
  induction l with
  | nil => cases c <;> rfl
  | cons p rest ih =>
    cases c with
    | confidence f =>
      by_cases h : f.min_confidence ≤ p.confidence_score <;>
        simp_all [ConcreteFilter.apply, ConfidenceFilter.apply, ConcreteFilter.pred,
          ConcreteFilter.mkExcluded, List.filter_cons]
    | dateRange f =>
      by_cases h1 : p.has_valid_date = true
      · by_cases h2 : p.overlaps_range f.start_date f.end_date = true <;>
          simp_all [ConcreteFilter.apply, DateRangeFilter.apply, ConcreteFilter.pred,
            ConcreteFilter.mkExcluded, List.filter_cons]
      · simp_all [ConcreteFilter.apply, DateRangeFilter.apply, ConcreteFilter.pred,
          ConcreteFilter.mkExcluded, List.filter_cons]
    | fieldMatch f =>
      match hv : metadataGet p.metadata f.field with
      | none =>
        by_cases hm : f.include_missing = true <;>
          simp_all [ConcreteFilter.apply, FieldFilter.apply, ConcreteFilter.pred,
            ConcreteFilter.mkExcluded, List.filter_cons]
      | some v =>
        by_cases hm : f.matches v = true <;>
          simp_all [ConcreteFilter.apply, FieldFilter.apply, ConcreteFilter.pred,
            ConcreteFilter.mkExcluded, List.filter_cons]

/-- Lengths of the two filtered halves add back to the input length. -/
theorem length_filter_add_length_filter_not (q : α → Bool) (l : List α) :
    (l.filter q).length + (l.filter fun a => !q a).length = l.length := by
  induction l with
  | nil => rfl
  | cons a t ih =>
    by_cases h : q a = true <;> simp [List.filter_cons, h, ih] <;> omega

/-- The included list of a chain is the input filtered through every
stage's predicate, in stage order. -/
theorem FilterChain.included_eq (fs : List ConcreteFilter) (l : List Performance) :
    (FilterChain.apply fs l).included
      = fs.foldl (fun cur c => cur.filter c.pred) l := by
  induction fs generalizing l with
  | nil => rfl
  | cons c rest ih => simp [FilterChain.apply, ConcreteFilter.apply_eq, ih]

/-- Two successive filters commute. -/
theorem filter_filter_comm (p q : α → Bool) (l : List α) :
    (l.filter p).filter q = (l.filter q).filter p := by
  simp [List.filter_filter, Bool.and_comm]

/-- C1: every concrete filter (confidence, date-range, field) partitions its
input: the included list is exactly the records satisfying the filter's
predicate, in input order (a sublist of the input), the excluded list is
exactly one item per rejected record, and the two lengths add back to the
input length — no record is dropped, none is duplicated. -/
theorem claim_C1_filter_partition (c : ConcreteFilter) (l : List Performance) :
    (c.apply l).included = l.filter c.pred ∧
    (c.apply l).excluded = (l.filter fun p => !c.pred p).map c.mkExcluded ∧
    (c.apply l).included.Sublist l ∧
    (c.apply l).included.length + (c.apply l).excluded.length = l.length := by
  have h := c.apply_eq l
  refine ⟨by rw [h], by rw [h], ?_, ?_⟩
  · rw [h]; exact List.filter_sublist l
  · rw [h]
    simpa using length_filter_add_length_filter_not (c.pred) l

/-- C5: permuting the filters of a chain leaves the final included list
unchanged (same records, same relative order); only which stage claims a
multiply-failing record's exclusion can differ, because each stage only
sees the previous stage's survivors. -/
theorem claim_C5_chain_order_independent (fs gs : List ConcreteFilter)
    (h : fs.Perm gs) (l : List Performance) :
    (FilterChain.apply fs l).included = (FilterChain.apply gs l).included := by
  rw [FilterChain.included_eq, FilterChain.included_eq]
  induction h generalizing l with
  | nil => rfl
  | cons x _ ih => simp only [List.foldl_cons]; exact ih _
  | swap x y t => simp only [List.foldl_cons]; rw [filter_filter_comm]
  | trans _ _ ih1 ih2 => exact (ih1 l).trans (ih2 l)

/-- Witness for C5: a record failing both a 0.5-confidence filter and a
1978 date-range filter is excluded whichever filter runs first, and the
final included lists of both orders agree. -/
theorem claim_C5_witness :
    (FilterChain.apply
        [.confidence ⟨mkRat 1 2⟩, .dateRange ⟨⟨1978, 1, 1⟩, ⟨1978, 12, 31⟩⟩]
        [perfLateLowConf]).included
      = (FilterChain.apply
          [.dateRange ⟨⟨1978, 1, 1⟩, ⟨1978, 12, 31⟩⟩, .confidence ⟨mkRat 1 2⟩]
          [perfLateLowConf]).included :=
  claim_C5_chain_order_independent _ _
    (List.Perm.swap (.dateRange ⟨⟨1978, 1, 1⟩, ⟨1978, 12, 31⟩⟩) (.confidence ⟨mkRat 1 2⟩) [])
    [perfLateLowConf]

/-- C2: the date-range filter's per-record decision: no temporal evidence
is excluded; an exact date `d` is included iff `start <= d <= end`; a bare
range `[rs, re]` is included iff it overlaps the window (`rs <= end` and
`start <= re`, closed intervals); when both are present the exact date alone
decides. -/
theorem claim_C2_date_range_decision (s e : PDate) (p : Performance) :
    ((p.performance_date = none ∧ p.performance_date_range = none) →
      (DateRangeFilter.apply ⟨s, e⟩ [p]).included = []) ∧
    (∀ d, p.performance_date = some d →
      ((DateRangeFilter.apply ⟨s, e⟩ [p]).included = [p] ↔
        (PDate.leb s d ∧ PDate.leb d e))) ∧
    (∀ rs re, p.performance_date = none → p.performance_date_range = some (rs, re) →
      ((DateRangeFilter.apply ⟨s, e⟩ [p]).included = [p] ↔
        (PDate.leb rs e ∧ PDate.leb s re))) ∧
    (∀ d rs re, p.performance_date = some d → p.performance_date_range = some (rs, re) →
      ((DateRangeFilter.apply ⟨s, e⟩ [p]).included = [p] ↔
        (PDate.leb s d ∧ PDate.leb d e))) := by
  refine ⟨?_, ?_, ?_, ?_⟩
  · rintro ⟨h1, h2⟩
    simp [DateRangeFilter.apply, Performance.has_valid_date, h1, h2]
  · intro d hd
    simp [DateRangeFilter.apply, Performance.has_valid_date,
      Performance.overlaps_range, hd]
    all_goals split_ifs with hc <;> simp_all
  · intro rs re hd hr
    simp [DateRangeFilter.apply, Performance.has_valid_date,
      Performance.overlaps_range, hd, hr]
    all_goals split_ifs with hc <;> simp_all
  · intro d rs re hd hr
    simp [DateRangeFilter.apply, Performance.has_valid_date,
      Performance.overlaps_range, hd, hr]
    all_goals split_ifs with hc <;> simp_all

/-- Witness for C2, on the spec's own examples against the window
1978-01-01..1978-12-31: the exact date 1978-06-15 is included, the bare
range (1978-06-01, 1978-08-01) overlaps and is included, and a record
without temporal evidence is excluded. -/
theorem claim_C2_witness :
    (DateRangeFilter.apply ⟨⟨1978, 1, 1⟩, ⟨1978, 12, 31⟩⟩ [perfJune78]).included
        = [perfJune78] ∧
    (DateRangeFilter.apply ⟨⟨1978, 1, 1⟩, ⟨1978, 12, 31⟩⟩ [perfRange78]).included
        = [perfRange78] ∧
    (DateRangeFilter.apply ⟨⟨1978, 1, 1⟩, ⟨1978, 12, 31⟩⟩ [perfNoDate]).included
        = [] := by
  refine ⟨?_, ?_, ?_⟩
  · exact ((claim_C2_date_range_decision ⟨1978, 1, 1⟩ ⟨1978, 12, 31⟩
      perfJune78).2.1 ⟨1978, 6, 15⟩ rfl).mpr (by decide)
  · exact ((claim_C2_date_range_decision ⟨1978, 1, 1⟩ ⟨1978, 12, 31⟩
      perfRange78).2.2.1 ⟨1978, 6, 1⟩ ⟨1978, 8, 1⟩ rfl rfl).mpr (by decide)
  · exact (claim_C2_date_range_decision ⟨1978, 1, 1⟩ ⟨1978, 12, 31⟩
      perfNoDate).1 ⟨rfl, rfl⟩

/-- C8: constructing a confidence filter succeeds exactly for thresholds in
[0,1] (anything else is an InvalidConfiguration error), the threshold is
stored unclamped, a record is included iff its score reaches the threshold,
and the concrete cases: threshold 0.5 with score 0.49 is excluded with a
reason containing "0.49" (2-decimal rendering), score 0.5 is included. -/
theorem claim_C8_confidence_filter :
    (∀ c : Rat, (∃ f, ConfidenceFilter.init c = .ok f) ↔ (0 ≤ c ∧ c ≤ 1)) ∧
    (∀ c f, ConfidenceFilter.init c = .ok f → f.min_confidence = c) ∧
    (∀ (f : ConfidenceFilter) (p : Performance),
      (f.apply [p]).included
        = if f.min_confidence ≤ p.confidence_score then [p] else []) ∧
    (ConfidenceFilter.init (mkRat 1 2) = .ok ⟨mkRat 1 2⟩ ∧
      ConfidenceFilter.init (mkRat 3 2)
        = .error "min_confidence must be between 0.0 and 1.0" ∧
      (ConfidenceFilter.apply ⟨mkRat 1 2⟩ [perf049]).included = [] ∧
      (ConfidenceFilter.apply ⟨mkRat 1 2⟩ [perf049]).excluded.map ExcludedItem.reason
        = ["Confidence 0.49 below threshold 0.5"] ∧
      (∃ pre post, ("Confidence 0.49 below threshold 0.5").toList
        = pre ++ "0.49".toList ++ post) ∧
      (ConfidenceFilter.apply ⟨mkRat 1 2⟩ [perf05]).included = [perf05]) := by
  refine ⟨?_, ?_, ?_, ?_, ?_, ?_, ?_, ?_, ?_⟩
  · intro c
    by_cases h : (0 ≤ c ∧ c ≤ 1) <;> simp [ConfidenceFilter.init, h]
  · intro c f h
    by_cases hc : (0 ≤ c ∧ c ≤ 1) <;> simp [ConfidenceFilter.init, hc] at h
    simp [← h]
  · intro f p
    simp [ConfidenceFilter.apply]
    all_goals split_ifs with h <;> simp_all
  · rfl
  · rfl
  · decide
  · decide
  · exact ⟨"Confidence ".toList, " below threshold 0.5".toList, by decide⟩
  · decide

/-- Witness for C8: the constructor stores threshold 0.5 unclamped. -/
theorem claim_C8_witness :
    (⟨mkRat 1 2⟩ : ConfidenceFilter).min_confidence = mkRat 1 2 :=
  claim_C8_confidence_filter.2.1 (mkRat 1 2) ⟨mkRat 1 2⟩ rfl

/-- A scalar matches the pre-normalized allowed set iff some allowed value
normalizes to the same thing (lowercasing both sides for strings when the
filter is case-insensitive, identity otherwise). -/
theorem FieldFilter.matchesScalar_iff (f : FieldFilter) (v : MetaScalar) :
    f.normalizedAllowed.contains (f.normalizeScalar v)
      ↔ ∃ a ∈ f.allowed_values, f.normalizeScalar v = f.normalizeScalar a := by
  by_cases hci : f.case_insensitive
  · simp only [FieldFilter.normalizedAllowed, hci, if_true, List.contains_eq_any_beq,
      List.any_eq_true, List.mem_map, beq_iff_eq]
    constructor
    · rintro ⟨w, ⟨a, ha, rfl⟩, hw⟩
      exact ⟨a, ha, hw⟩
    · rintro ⟨a, ha, hv⟩
      exact ⟨f.normalizeScalar a, ⟨a, ha, rfl⟩, hv⟩
  · have hid : ∀ w : MetaScalar, f.normalizeScalar w = w := by
      intro w
      cases w <;> simp [FieldFilter.normalizeScalar, hci]
    simp [FieldFilter.normalizedAllowed, hci, hid]

/-- C9: the field filter's per-record decision: a missing field is included
iff the include-missing flag is set; a list value is included iff any
element matches an allowed value (normalizing both sides); a scalar value is
included iff it matches; and the spec's concrete cases for the
case-insensitive \x7bpunk, rock\x7d genre filter. -/
theorem claim_C9_field_filter :
    (∀ (f : FieldFilter) (p : Performance),
      metadataGet p.metadata f.field = none →
        (f.apply [p]).included = if f.include_missing then [p] else []) ∧
    (∀ (f : FieldFilter) (p : Performance) (vs : List MetaScalar),
      metadataGet p.metadata f.field = some (.list vs) →
        ((f.apply [p]).included = [p] ↔
          ∃ v ∈ vs, ∃ a ∈ f.allowed_values,
            f.normalizeScalar v = f.normalizeScalar a)) ∧
    (∀ (f : FieldFilter) (p : Performance) (v : MetaScalar),
      metadataGet p.metadata f.field = some (.scalar v) →
        ((f.apply [p]).included = [p] ↔
          ∃ a ∈ f.allowed_values, f.normalizeScalar v = f.normalizeScalar a)) ∧
    ((genreFilter.apply [perfGenrePunk]).included = [perfGenrePunk] ∧
      (genreFilter.apply [perfGenreList]).included = [perfGenreList] ∧
      (genreFilter.apply [perfGenreMissing]).included = []) := by
  refine ⟨?_, ?_, ?_, by decide, by decide, by decide⟩
  · intro f p hm
    simp [FieldFilter.apply, hm]
    all_goals split_ifs <;> simp_all
  · intro f p vs hv
    simp only [FieldFilter.apply, hv]
    by_cases h : f.matches (.list vs) = true
    · simp only [h, if_true]
      simp only [FieldFilter.matches] at h
      simp only [List.any_eq_true, FieldFilter.matchesScalar_iff] at h
      simpa using h
    · simp only [h, if_false]
      simp only [FieldFilter.matches] at h
      simp only [List.any_eq_true, FieldFilter.matchesScalar_iff] at h
      simpa using h
  · intro f p v hv
    simp only [FieldFilter.apply, hv]
    by_cases h : f.matches (.scalar v) = true
    · simp only [h, if_true]
      simp only [FieldFilter.matches, FieldFilter.matchesScalar_iff] at h
      simpa using h
    · simp only [h, if_false]
      simp only [FieldFilter.matches, FieldFilter.matchesScalar_iff] at h
      simpa using h

/-- Witness for C9: the genre filter includes the scalar "Punk" record. -/
theorem claim_C9_witness :
    (genreFilter.apply [perfGenrePunk]).included = [perfGenrePunk] :=
  (claim_C9_field_filter.2.2.1 genreFilter perfGenrePunk (.str "Punk") rfl).mpr
    ⟨.str "punk", by decide, by decide⟩

/-- C3: the era-weighted strategy falls back exactly to Top-N (reasons
included) when no performance date is supplied; with a date, each track's
score is `max(0, 100 - 10*|release_year - performance_year|)` (0 for a
missing or unparsable release date), the sort is stable descending by score
(ties keep catalog order, stated for full-catalog selection), and on the
spec's example (performance year 1978, releases 1977/1978/1985) the scores
are 90/100/30 and count=2 selects the 1978 track then the 1977 track. -/
theorem claim_C3_era_weighted :
    (∀ (aid an : String) (tracks : List TrackData) (count : Nat),
      EraWeightedStrategy.select_tracks aid an tracks none count
        = TopNStrategy.select_tracks aid an tracks none count) ∧
    (∀ (s : String) (pd : PDate) (ry : Int), s ≠ "" →
      pyInt? ((pySplit s '-').headD "") = some ry →
      EraWeightedStrategy.calculate_era_score s pd
        = max 0 (100 - 10 * |ry - (pd.year : Int)|)) ∧
    (∀ (s : String) (pd : PDate),
      (s = "" ∨ pyInt? ((pySplit s '-').headD "") = none) →
      EraWeightedStrategy.calculate_era_score s pd = 0) ∧
    (∀ (aid an : String) (pd : PDate) (tracks : List TrackData) (a b : TrackData),
      [a, b].Sublist tracks → eraScoreOf pd a = eraScoreOf pd b →
      [eraConvert a, eraConvert b].Sublist
        (EraWeightedStrategy.select_tracks aid an tracks (some pd) tracks.length)) ∧
    (EraWeightedStrategy.calculate_era_score "1977" ⟨1978, 7, 1⟩ = 90 ∧
      EraWeightedStrategy.calculate_era_score "1978" ⟨1978, 7, 1⟩ = 100 ∧
      EraWeightedStrategy.calculate_era_score "1985" ⟨1978, 7, 1⟩ = 30 ∧
      (EraWeightedStrategy.select_tracks "a" "n" eraTracks
        (some ⟨1978, 7, 1⟩) 2).map Track.spotify_id = ["t78", "t77"] ∧
      (EraWeightedStrategy.select_tracks "a" "n" eraTieTracks
        (some ⟨1978, 7, 1⟩) 3).map Track.spotify_id = ["t78", "t77a", "t77b"]) := by
  refine ⟨?_, ?_, ?_, ?_, by decide, by decide, by decide, by decide, by decide⟩
  · intro aid an tracks count
    rfl
  · intro s pd ry hs hry
    simp only [EraWeightedStrategy.calculate_era_score, hs, hry, if_false, if_neg hs]
    rw [Int.abs_eq_natAbs]
    congr 1
    ring
  · intro s pd h
    rcases h with h | h
    · simp [EraWeightedStrategy.calculate_era_score, h]
    · by_cases hs : s = ""
      · simp [EraWeightedStrategy.calculate_era_score, hs]
      · simp only [EraWeightedStrategy.calculate_era_score, if_neg hs, h]
  · intro aid an pd tracks a b hsub heq
    have hsub2 : [(eraScoreOf pd a, a), (eraScoreOf pd b, b)].Sublist
        (tracks.map fun t => (eraScoreOf pd t, t)) := by
      simpa using List.Sublist.map (fun t => (eraScoreOf pd t, t)) hsub
    have hpair := List.pair_sublist_insertionSort
      (r := fun x y : Int × TrackData => y.1 ≤ x.1)
      (le_of_eq heq.symm) hsub2
    have hlen : ((tracks.map fun t => (eraScoreOf pd t, t)).insertionSort
        fun x y : Int × TrackData => y.1 ≤ x.1).length = tracks.length := by
      rw [List.length_insertionSort, List.length_map]
    show [eraConvert a, eraConvert b].Sublist
      ((((tracks.map fun t => (eraScoreOf pd t, t)).insertionSort
          fun x y : Int × TrackData => y.1 ≤ x.1).take tracks.length).map
        Prod.snd |>.map eraConvert)
    rw [← hlen, List.take_length]
    exact List.Sublist.map eraConvert (by simpa using List.Sublist.map Prod.snd hpair)

/-- Witness for C3: the score formula instantiated at release string "1977"
and performance year 1978 gives `max 0 (100 - 10*|1977 - 1978|) = 90`, and
stability instantiated on the tie catalog keeps the two 1977 tracks in
catalog order. -/
theorem claim_C3_witness :
    EraWeightedStrategy.calculate_era_score "1977" ⟨1978, 7, 1⟩
        = max 0 (100 - 10 * |(1977 : Int) - 1978|) ∧
    [eraConvert (trackRel "t77a" "1977" none),
      eraConvert (trackRel "t77b" "1977" none)].Sublist
      (EraWeightedStrategy.select_tracks "a" "n" eraTieTracks
        (some ⟨1978, 7, 1⟩) eraTieTracks.length) := by
  constructor
  · exact claim_C3_era_weighted.2.1 "1977" ⟨1978, 7, 1⟩ 1977 (by decide) (by decide)
  · exact claim_C3_era_weighted.2.2.2.1 "a" "n" ⟨1978, 7, 1⟩ eraTieTracks
      (trackRel "t77a" "1977" none) (trackRel "t77b" "1977" none)
      (by decide) (by decide)

/-- `DeepCutsStrategy.select_tracks`, rewritten through the named pool. -/
theorem DeepCutsStrategy.select_eq (strat : DeepCutsStrategy)
    (sample : List TrackData → Nat → List TrackData) (aid an : String)
    (tracks : List TrackData) (pd : Option PDate) (count : Nat) :
    strat.select_tracks sample aid an tracks pd count
      = (if (deepCutPoolWithFallback strat tracks count).length ≤ count
          then deepCutPoolWithFallback strat tracks count
          else sample (deepCutPoolWithFallback strat tracks count) count).map
        (deepConvert strat) := rfl

/-- C4: the deep-cuts strategy selects from the candidate pool of tracks
with popularity at most the configured ceiling; an empty pool falls back to
the `2*count` least popular tracks (stable ascending popularity sort); a
pool of at most `count` tracks is returned whole, a larger pool yields
exactly `count` sampled tracks; and every returned track is drawn from the
pool, carrying a reason citing its popularity. -/
theorem claim_C4_deep_cuts (sample : List TrackData → Nat → List TrackData)
    (hlen : ∀ l n, n ≤ l.length → (sample l n).length = n)
    (hmem : ∀ l n x, x ∈ sample l n → x ∈ l)
    (strat : DeepCutsStrategy) (aid an : String) (tracks : List TrackData)
    (pd : Option PDate) (count : Nat) :
    ((deepCutPoolWithFallback strat tracks count).length ≤ count →
      strat.select_tracks sample aid an tracks pd count
        = (deepCutPoolWithFallback strat tracks count).map (deepConvert strat)) ∧
    (count < (deepCutPoolWithFallback strat tracks count).length →
      (strat.select_tracks sample aid an tracks pd count).length = count) ∧
    (∀ tr ∈ strat.select_tracks sample aid an tracks pd count,
      ∃ t ∈ deepCutPoolWithFallback strat tracks count,
        tr = deepConvert strat t) := by
  refine ⟨?_, ?_, ?_⟩
  · intro hle
    rw [DeepCutsStrategy.select_eq, if_pos hle]
  · intro hlt
    rw [DeepCutsStrategy.select_eq, if_neg (not_le.mpr hlt), List.length_map]
    exact hlen _ _ (le_of_lt hlt)
  · intro tr htr
    rw [DeepCutsStrategy.select_eq] at htr
    by_cases hle : (deepCutPoolWithFallback strat tracks count).length ≤ count
    · rw [if_pos hle] at htr
      obtain ⟨t, ht, rfl⟩ := List.mem_map.mp htr
      exact ⟨t, ht, rfl⟩
    · rw [if_neg hle] at htr
      obtain ⟨t, ht, rfl⟩ := List.mem_map.mp htr
      exact ⟨t, hmem _ _ _ ht, rfl⟩

/-- Witness for C4, on the spec's example: popularities [10,70,55,90,40],
ceiling 60, count 2, sampling the first two — exactly two tracks selected,
each drawn from the \x7b10,55,40\x7d pool. -/
theorem claim_C4_witness :
    ((DeepCutsStrategy.mk 60).select_tracks takeSampler "a" "n" deepTracks
      none 2).length = 2 :=
  (claim_C4_deep_cuts takeSampler
    (by intro l n h; simp [takeSampler, List.length_take]; omega)
    (by intro l n x hx; exact (List.take_sublist n l).subset hx)
    ⟨60⟩ "a" "n" deepTracks none 2).2.1 (by decide)

/-- C6: every strategy (Top-N, Random-N, era-weighted, deep-cuts), on any
well-formed track list, nonnegative count and optional performance date,
returns at most `count` tracks and returns `[]` on an empty catalog; the
embedding is total, reflecting that `select_tracks` never raises on
well-formed input. -/
theorem claim_C6_strategies_safe (sample : List TrackData → Nat → List TrackData)
    (hlen : ∀ l n, n ≤ l.length → (sample l n).length = n)
    (choice : StrategyChoice) (aid an : String) (tracks : List TrackData)
    (pd : Option PDate) (count : Nat) :
    (runStrategy choice sample aid an tracks pd count).length ≤ count ∧
    (tracks = [] → runStrategy choice sample aid an tracks pd count = []) := by
  have htop : ∀ ts : List TrackData,
      (TopNStrategy.select_tracks aid an ts pd count).length ≤ count := by
    intro ts
    simp [TopNStrategy.select_tracks, List.length_take]
  cases choice with
  | top =>
    refine ⟨htop tracks, ?_⟩
    rintro rfl
    simp [runStrategy, TopNStrategy.select_tracks]
  | random =>
    constructor
    · by_cases h : tracks.length ≤ count
      · simpa [runStrategy, RandomNStrategy.select_tracks, if_pos h] using h
      · simp only [runStrategy, RandomNStrategy.select_tracks, if_neg h,
          List.length_map]
        exact le_of_eq (hlen _ _ (le_of_lt (not_le.mp h)))
    · rintro rfl
      simp [runStrategy, RandomNStrategy.select_tracks]
  | era =>
    constructor
    · cases pd with
      | none => exact htop tracks
      | some d =>
        simp [runStrategy, EraWeightedStrategy.select_tracks, List.length_take]
    · rintro rfl
      cases pd with
      | none => simp [runStrategy, EraWeightedStrategy.select_tracks,
          TopNStrategy.select_tracks]
      | some d => simp [runStrategy, EraWeightedStrategy.select_tracks]
  | deep mp =>
    constructor
    · show (DeepCutsStrategy.select_tracks ⟨mp⟩ sample aid an tracks pd count).length
        ≤ count
      rw [DeepCutsStrategy.select_eq]
      by_cases h : (deepCutPoolWithFallback ⟨mp⟩ tracks count).length ≤ count
      · simpa [if_pos h] using h
      · rw [if_neg h, List.length_map]
        exact le_of_eq (hlen _ _ (le_of_lt (not_le.mp h)))
    · rintro rfl
      show (DeepCutsStrategy.select_tracks ⟨mp⟩ sample aid an [] pd count) = []
      rw [DeepCutsStrategy.select_eq]
      simp [deepCutPoolWithFallback, deepCutPool, popSortAsc]

/-- Witness for C6: Top-N on the three-track example catalog with count 2
returns at most 2 tracks, and every strategy returns [] on []. -/
theorem claim_C6_witness :
    (runStrategy .top takeSampler "a" "n" eraTracks none 2).length ≤ 2 ∧
    runStrategy (.deep 60) takeSampler "a" "n" [] none 3 = [] := by
  have hlen : ∀ (l : List TrackData) n, n ≤ l.length → (takeSampler l n).length = n := by
    intro l n h
    simp [takeSampler, List.length_take]
    omega
  exact ⟨(claim_C6_strategies_safe takeSampler hlen .top "a" "n" eraTracks none 2).1,
    (claim_C6_strategies_safe takeSampler hlen (.deep 60) "a" "n" [] none 3).2 rfl⟩

/-- C10: a track without a popularity field is treated as popularity 0: it
always qualifies for the deep-cut candidate pool (the ceiling is a
popularity score, hence nonnegative), and in the ascending popularity sort
used by the empty-pool fallback it comes strictly before every track with
positive popularity. -/
theorem claim_C10_missing_popularity :
    (∀ (strat : DeepCutsStrategy) (tracks : List TrackData) (t : TrackData),
      t ∈ tracks → t.popularity = none → t ∈ deepCutPool strat tracks) ∧
    (∀ (tracks : List TrackData) (i j : Fin (popSortAsc tracks).length),
      ((popSortAsc tracks).get i).popularity = none →
      0 < ((popSortAsc tracks).get j).popularityD →
      (i : Nat) < (j : Nat)) := by
  constructor
  · intro strat tracks t ht hnone
    simp [deepCutPool, List.mem_filter, ht, TrackData.popularityD, hnone]
  · intro tracks i j hnone hpos
    have hsorted : (popSortAsc tracks).Sorted
        fun a b => a.popularityD ≤ b.popularityD := by
      haveI : IsTotal TrackData fun a b => a.popularityD ≤ b.popularityD :=
        ⟨fun a b => Nat.le_total _ _⟩
      haveI : IsTrans TrackData fun a b => a.popularityD ≤ b.popularityD :=
        ⟨fun a b c => Nat.le_trans⟩
      exact List.sorted_insertionSort _ _
    have hzero : ((popSortAsc tracks).get i).popularityD = 0 := by
      show ((popSortAsc tracks).get i).popularity.getD 0 = 0
      rw [hnone]
      rfl
    rcases lt_trichotomy (i : Nat) (j : Nat) with h | h | h
    · exact h
    · exfalso
      have hij : i = j := Fin.ext h
      subst hij
      simp only [List.get_eq_getElem] at hzero hpos
      omega
    · have hle := List.pairwise_iff_get.mp hsorted j i (by exact h)
      simp only [List.get_eq_getElem] at hzero hpos hle
      omega

/-- Witness for C10: in the mixed catalog the popularity-less track enters
the pool even at ceiling 0, and sorts strictly before the popularity-5
track. -/
theorem claim_C10_witness :
    trackRel "nopop" "1977" none ∈ deepCutPool ⟨0⟩ mixedPopTracks ∧
    ((0 : Nat) < (1 : Nat)) := by
  constructor
  · exact claim_C10_missing_popularity.1 ⟨0⟩ mixedPopTracks
      (trackRel "nopop" "1977" none) (by decide) rfl
  · exact claim_C10_missing_popularity.2 mixedPopTracks
      ⟨0, by decide⟩ ⟨1, by decide⟩ (by decide) (by decide)

/-- C7: the strategy resolver takes the case-insensitive part before the
first hyphen, maps it through the fixed table
\x7btop|top_n → Top-N, random|random_n → Random-N, era|era_weighted →
Era-weighted, deep|deep_cuts → Deep-cuts\x7d without consuming the numeric
suffix (any suffix resolves the same), resolves every unrecognized prefix to
Top-N, and in particular sends "deep-4" to deep-cuts and "xyz-2" to Top-N;
the embedding is total, reflecting that `get_strategy` never raises. -/
theorem claim_C7_strategy_resolver :
    (∀ kw, get_strategy "top" kw = .top ∧ get_strategy "top_n" kw = .top ∧
      get_strategy "random" kw = .random ∧ get_strategy "random_n" kw = .random ∧
      get_strategy "era" kw = .era ∧ get_strategy "era_weighted" kw = .era ∧
      get_strategy "deep" kw = .deep (kw.getD 60) ∧
      get_strategy "deep_cuts" kw = .deep (kw.getD 60)) ∧
    (∀ sfx kw, get_strategy ("top-" ++ sfx) kw = .top) ∧
    (∀ sfx kw, get_strategy ("random-" ++ sfx) kw = .random) ∧
    (∀ sfx kw, get_strategy ("era-" ++ sfx) kw = .era) ∧
    (∀ sfx kw, get_strategy ("deep-" ++ sfx) kw = .deep (kw.getD 60)) ∧
    (∀ sfx kw, get_strategy ("DeEp-" ++ sfx) kw = .deep (kw.getD 60)) ∧
    (∀ sfx kw, get_strategy ("xyz-" ++ sfx) kw = .top) ∧
    (∀ kw, get_strategy "deep-4" kw = .deep (kw.getD 60)) ∧
    (∀ kw, get_strategy "xyz-2" kw = .top) :=
  ⟨fun _ => ⟨rfl, rfl, rfl, rfl, rfl, rfl, rfl, rfl⟩,
    fun _ _ => rfl, fun _ _ => rfl, fun _ _ => rfl, fun _ _ => rfl,
    fun _ _ => rfl, fun _ _ => rfl, fun _ => rfl, fun _ => rfl⟩

end Venue2Playlist
